import Mathlib

/-
Verification of the ALICE O2 Readout core against its specification.

The definitions below are shallow embeddings of the C++ sources:
  * `ReadoutUtils.cxx` / `ReadoutUtils::getNumberOfBytesFromString`
  * `ReadoutEquipment.cxx` (timeframe identification, RDH page checks,
    the readout thread loop with its rate limiter and block-id stamping)
  * `ConsumerFMQchannel.cxx` (page accounting in `userSpace`, STF header
    construction, HBF repacking, the threaded data-distribution dispatcher)

Machine integers are modelled as `Nat`/`Int` with explicit `% 2^32` where
wraparound matters; C `double` values (readout rate, elapsed time) are
modelled as `Rat`; truncating casts to integers use `Int.tdiv`, which
rounds toward zero exactly as a C cast does.
-/

namespace Readout

/-- Truncation of a rational toward zero, the effect of the C cast
`(long long)x` / `(int)x` on an exact (rational) value. -/
def ratTrunc (q : ℚ) : ℤ := q.num.tdiv q.den

/-- Result of `sscanf(inputString, "%lf%c", &v, &c)` as used by
`ReadoutUtils::getNumberOfBytesFromString`: no numeric match, a number
matched with nothing after it, or a number followed by one character.
The scanned value is modelled as an exact rational. -/
inductive ScanResult where
  | fail : ScanResult
  | numOnly (v : ℚ) : ScanResult
  | numSuffix (v : ℚ) (c : Char) : ScanResult

/-- Model of `ReadoutUtils::getNumberOfBytesFromString` (ReadoutUtils.cxx), applied
to the scanned form of its input string: a recognized suffix in k/M/G/T/P
scales by the matching power of 1024 before the truncating cast, a bare
number is cast directly, anything else yields 0. -/
def getNumberOfBytesFromString : ScanResult → ℤ
  | .fail => 0
  | .numOnly v => ratTrunc v
  | .numSuffix v c =>
    if c = 'k' then ratTrunc (v * 1024) else
    if c = 'M' then ratTrunc (v * (1024 * 1024)) else
    if c = 'G' then ratTrunc (v * (1024 * 1024 * 1024)) else
    if c = 'T' then ratTrunc (v * (1024 * 1024 * 1024 * 1024)) else
    if c = 'P' then ratTrunc (v * (1024 * 1024 * 1024 * 1024 * 1024)) else
    0

/-- Default of the `TFperiod` configuration parameter of `ReadoutEquipment`
(`int cfgTFperiod = 256;`), in LHC orbits. -/
def cfgTFperiodDefault : ℕ := 256

/-- The `ReadoutEquipment` state manipulated by `getTimeframeFromOrbit`:
the first heartbeat orbit seen, whether it was recorded yet, the current
timeframe id and the timeframe counter. -/
structure TfIdState where
  isDefinedFirstTimeframeHbOrbitBegin : Bool
  firstTimeframeHbOrbitBegin : ℕ
  currentTimeframe : ℕ
  statsNumberOfTimeframes : ℕ
  deriving DecidableEq

/-- Model of `ReadoutEquipment::getTimeframeFromOrbit` (unnamed part\_002).  On the
first call the observed orbit is recorded as `firstTimeframeHbOrbitBegin`;
the timeframe id is `1 + (hbOrbit - firstOrbit) / TFperiod` where the
subtraction is 32-bit unsigned (wraps mod `2^32`).  The timeframe counter
is bumped when the id changes. -/
def getTimeframeFromOrbit (timeframePeriodOrbits : ℕ) (s : TfIdState) (hbOrbit : ℕ) :
    TfIdState × ℕ :=
  let s :=
    if s.isDefinedFirstTimeframeHbOrbitBegin = false then
      { s with firstTimeframeHbOrbitBegin := hbOrbit,
               isDefinedFirstTimeframeHbOrbitBegin := true }
    else s
  let tfId := 1 + ((hbOrbit + 2 ^ 32 - s.firstTimeframeHbOrbitBegin) % 2 ^ 32) /
      timeframePeriodOrbits
  let s :=
    if tfId ≠ s.currentTimeframe then
      { s with statsNumberOfTimeframes := s.statsNumberOfTimeframes + 1 }
    else s
  ({ s with currentTimeframe := tfId }, tfId)


/-- The in-band `DataBlock` header fields used by the consumer and
equipment paths (DataBlock.h / DataBlockContainer.h). -/
structure DataBlockHeader where
  blockId : ℕ
  dataSize : ℕ
  equipmentId : ℕ
  linkId : ℕ
  feeId : ℕ
  systemId : ℕ
  timeframeId : ℕ
  timeframeOrbitFirst : ℕ
  timeframeOrbitLast : ℕ
  runNumber : ℕ
  flagEndOfTimeframe : Bool
  isRdhFormat : Bool
  deriving DecidableEq

/-- The STF wire header filled by `ConsumerFMQchannel` (layout from
`SubTimeframe.h`, given in the spec, section 6). -/
structure SubTimeframe where
  timeframeId : ℕ
  runNumber : ℕ
  systemId : ℕ
  linkId : ℕ
  feeId : ℕ
  equipmentId : ℕ
  timeframeOrbitFirst : ℕ
  timeframeOrbitLast : ℕ
  isRdhFormat : Bool
  lastTFMessage : ℕ
  deriving DecidableEq

/-- Modelled from the spec: the default-constructed `SubTimeframe`
(`SubTimeframe stfhDefaults; *stfHeader = stfhDefaults;`).  `SubTimeframe.h`
is not part of the sources; the spec describes the wire header with the
`lastTFMessage` flag "set if any block has `flagEndOfTimeframe`", so every
field starts at zero. -/
def stfhDefaults : SubTimeframe :=
  ⟨0, 0, 0, 0, 0, 0, 0, 0, false, 0⟩

/-- The STF-header part of the first block iteration of
`ConsumerFMQchannel::DDformatMessage` (ConsumerFMQchannel.cxx, lines
726-788): on every block, `flagEndOfTimeframe` sets `lastTFMessage`; the
first block fills the identification fields. -/
def ddHeaderLoop : SubTimeframe → Bool → List DataBlockHeader → SubTimeframe
  | stf, _, [] => stf
  | stf, isFirst, b :: bs =>
    let stf1 := if b.flagEndOfTimeframe then { stf with lastTFMessage := 1 } else stf
    let stf2 :=
      if isFirst then
        { stf1 with timeframeId := b.timeframeId, runNumber := b.runNumber,
                    systemId := b.systemId, feeId := b.feeId, equipmentId := b.equipmentId,
                    linkId := b.linkId, timeframeOrbitFirst := b.timeframeOrbitFirst,
                    timeframeOrbitLast := b.timeframeOrbitLast, isRdhFormat := b.isRdhFormat }
      else stf1
    ddHeaderLoop stf2 false bs

/-- The STF header produced by `ConsumerFMQchannel::DDformatMessage` for a
dataset, STF/HBF mode. -/
def DDformatStfHeader (bc : List DataBlockHeader) : SubTimeframe :=
  ddHeaderLoop stfhDefaults true bc

/-- The STF header produced by the StfSuperpage branch of
`ConsumerFMQchannel::pushData` (ConsumerFMQchannel.cxx, lines 513-532) for
the non-empty dataset `b :: bs`: `lastTFMessage` is set from the *last*
block (`bc->back()`), then the identification fields are copied from the
first block (the loop ends with `break` after one pass). -/
def stfSuperpageHeader (b : DataBlockHeader) (bs : List DataBlockHeader) : SubTimeframe :=
  let stf := stfhDefaults
  let stf :=
    if ((b :: bs).getLastD b).flagEndOfTimeframe then { stf with lastTFMessage := 1 }
    else stf
  { stf with timeframeId := b.timeframeId, runNumber := b.runNumber,
             systemId := b.systemId, feeId := b.feeId, equipmentId := b.equipmentId,
             linkId := b.linkId, timeframeOrbitFirst := b.timeframeOrbitFirst,
             timeframeOrbitLast := b.timeframeOrbitLast }

/-- The `DataBlockFMQStats` POD embedded in `DataBlock.userSpace`
(ConsumerFMQchannel.cxx, lines 48-54). -/
structure DataBlockFMQStats where
  magic : ℕ
  countRef : ℤ
  t0 : ℕ
  dataSizeAccounted : ℕ
  memorySizeAccounted : ℕ
  deriving DecidableEq

/-- The global `gReadoutStats` counters touched by the page-accounting
helpers (ReadoutStats.h is external; the fields are those used in
ConsumerFMQchannel.cxx, lines 65-114). -/
structure ReadoutStatsCounters where
  pagesPendingFairMQ : ℤ
  pagesPendingFairMQreleased : ℕ
  pagesPendingFairMQtime : ℕ
  ddPayloadPendingBytes : ℤ
  ddMemoryPendingBytes : ℤ
  notify : ℕ
  deriving DecidableEq

/-- Model of `initDataBlockStats` (ConsumerFMQchannel.cxx, lines 65-73): arm the
magic byte, zero the reference count and the accounted payload, record the
accounted memory size. -/
def initDataBlockStats (s : DataBlockFMQStats) (v_memorySizeAccounted : ℕ) :
    DataBlockFMQStats :=
  { s with magic := 0xAA, countRef := 0, dataSizeAccounted := 0,
           memorySizeAccounted := v_memorySizeAccounted }

/-- Model of `incDataBlockStats` (ConsumerFMQchannel.cxx, lines 75-93): no-op unless
the magic byte is armed; the first reference (post-increment of `countRef`
reads 0) records `t0` and bumps the pages-pending and memory-pending
counters; every call accounts `dataSizeAccounted` payload bytes. -/
def incDataBlockStats (now : ℕ) (dataSizeAccounted : ℕ)
    (s : DataBlockFMQStats) (g : ReadoutStatsCounters) :
    DataBlockFMQStats × ReadoutStatsCounters :=
  if s.magic ≠ 0xAA then (s, g)
  else
    let isFirstRef := s.countRef = 0
    let s1 := { s with countRef := s.countRef + 1 }
    let s2 := if isFirstRef then { s1 with t0 := now } else s1
    let g1 :=
      if isFirstRef then
        { g with pagesPendingFairMQ := g.pagesPendingFairMQ + 1,
                 notify := g.notify + 1,
                 ddMemoryPendingBytes := g.ddMemoryPendingBytes + s.memorySizeAccounted }
      else g
    ({ s2 with dataSizeAccounted := s2.dataSizeAccounted + dataSizeAccounted },
     { g1 with ddPayloadPendingBytes := g1.ddPayloadPendingBytes + dataSizeAccounted })

/-- Model of `decDataBlockStats` (ConsumerFMQchannel.cxx, lines 95-114): no-op unless
the magic byte is armed; when the pre-decrement of `countRef` reaches 0 the
pending counters are released, the page lifetime is accumulated and the
magic byte is cleared. -/
def decDataBlockStats (now : ℕ) (s : DataBlockFMQStats) (g : ReadoutStatsCounters) :
    DataBlockFMQStats × ReadoutStatsCounters :=
  if s.magic ≠ 0xAA then (s, g)
  else
    let s1 := { s with countRef := s.countRef - 1 }
    if s1.countRef = 0 then
      ({ s1 with magic := 0x00 },
       { g with pagesPendingFairMQ := g.pagesPendingFairMQ - 1,
                pagesPendingFairMQreleased := g.pagesPendingFairMQreleased + 1,
                pagesPendingFairMQtime := g.pagesPendingFairMQtime + (now - s.t0),
                ddPayloadPendingBytes := g.ddPayloadPendingBytes - s.dataSizeAccounted,
                ddMemoryPendingBytes := g.ddMemoryPendingBytes - s.memorySizeAccounted,
                notify := g.notify + 1 })
    else (s1, g)


/-- One Raw Data Header as visited by the check loop of
`ReadoutEquipment::processRdh`: whether `validateRdh` succeeds on it, its
link id, trigger orbit and `offsetNextPacket` (RAWDataHeader.h is
external; only these fields are read by the loop). -/
structure Rdh where
  isValidRdh : Bool
  linkId : ℕ
  triggerOrbit : ℕ
  offsetNextPacket : ℕ
  deriving DecidableEq

/-- The per-equipment RDH check counters (unnamed part\_002,
`initCounters`). -/
structure RdhCheckStats where
  statsRdhCheckOk : ℕ
  statsRdhCheckErr : ℕ
  statsRdhCheckStreamErr : ℕ
  deriving DecidableEq

/-- The wrap-aware "orbit outside `[timeframeOrbitFirst,
timeframeOrbitLast]`" test of `ReadoutEquipment::processRdh` (unnamed
part\_002, line 620), written exactly as the source condition. -/
def orbitOutOfRange (timeframeOrbitFirst timeframeOrbitLast triggerOrbit : ℕ) : Bool :=
  ((decide (timeframeOrbitFirst < timeframeOrbitLast)) &&
    ((decide (triggerOrbit < timeframeOrbitFirst)) ||
     (decide (triggerOrbit > timeframeOrbitLast)))) ||
  ((decide (timeframeOrbitFirst > timeframeOrbitLast)) &&
    ((decide (triggerOrbit < timeframeOrbitFirst)) &&
     (decide (triggerOrbit > timeframeOrbitLast))))

/-- The `cfgRdhCheckEnabled` walk of `ReadoutEquipment::processRdh`
(unnamed part\_002, lines 567-655) over the RDHs visited along
`offsetNextPacket`, in page order: an invalid RDH counts `rdhCheckErr` and
stops; a link id differing from the first RDH of the page, or a trigger
orbit outside the page's timeframe orbit range, counts `rdhCheckStreamErr`
and stops; a zero `offsetNextPacket` ends the walk.  `firstLinkId` is
`none` until the RDH at page offset 0 has been seen. -/
def processRdhCheckLoop (timeframeOrbitFirst timeframeOrbitLast : ℕ) :
    Option ℕ → RdhCheckStats → List Rdh → RdhCheckStats
  | _, c, [] => c
  | firstLinkId, c, h :: rest =>
    if h.isValidRdh = false then
      { c with statsRdhCheckErr := c.statsRdhCheckErr + 1 }
    else
      let c1 := { c with statsRdhCheckOk := c.statsRdhCheckOk + 1 }
      let linkId := firstLinkId.getD h.linkId
      if linkId ≠ h.linkId then
        { c1 with statsRdhCheckStreamErr := c1.statsRdhCheckStreamErr + 1 }
      else if orbitOutOfRange timeframeOrbitFirst timeframeOrbitLast h.triggerOrbit then
        { c1 with statsRdhCheckStreamErr := c1.statsRdhCheckStreamErr + 1 }
      else if h.offsetNextPacket = 0 then c1
      else processRdhCheckLoop timeframeOrbitFirst timeframeOrbitLast (some linkId) c1 rest


/-- One pending HBF fragment of `DDformatMessage` (`struct pendingFrame`,
ConsumerFMQchannel.cxx, lines 815-820): the source page's payload bytes
(`b->data`), the start offset `HBstart` and the length `HBlength`. -/
structure PendingFrame where
  data : List ℕ
  HBstart : ℕ
  HBlength : ℕ
  deriving DecidableEq

/-- Model of `memcpy(&dst[dstIx], &src[srcIx], len)` over byte lists: the
destination with `len` source bytes from `srcIx` spliced in at `dstIx`. -/
def memcpy (dst : List ℕ) (dstIx : ℕ) (src : List ℕ) (srcIx len : ℕ) : List ℕ :=
  dst.take dstIx ++ (src.drop srcIx).take len ++ dst.drop (dstIx + len)

/-- The bytes `b->data[HBstart .. HBstart + HBlength)` of a fragment. -/
def fragmentBytes (f : PendingFrame) : List ℕ :=
  (f.data.drop f.HBstart).take f.HBlength

/-- Model of `totalSize`, the sum of the pending fragment lengths, computed by the
accumulating loop in `pendingFramesCollect` (ConsumerFMQchannel.cxx,
lines 870-873). -/
def pendingFramesTotalSize (frames : List PendingFrame) : ℕ :=
  frames.foldl (fun t f => t + f.HBlength) 0

/-- The copy loop of the multi-fragment branch of `pendingFramesCollect`
(ConsumerFMQchannel.cxx, lines 933-946): `memcpy` every fragment to the
scratch page at the running offset `newIx`, advancing `newIx` by the
fragment length. -/
def repackLoop (newBlock : List ℕ) (newIx : ℕ) : List PendingFrame → List ℕ × ℕ
  | [] => (newBlock, newIx)
  | f :: fs =>
    repackLoop (memcpy newBlock newIx f.data f.HBstart f.HBlength) (newIx + f.HBlength) fs

/-- The repacked message part produced by the multi-fragment branch of
`pendingFramesCollect` (`nFrames > 1`): fails ("page size too small") when
the fragments do not fit in `memoryPoolPageSize`, otherwise runs the copy
loop on a fresh scratch page and queues a message of exactly `totalSize`
bytes starting at the page base. -/
def pendingFramesCollectRepack (memoryPoolPageSize : ℕ) (frames : List PendingFrame) :
    Option (List ℕ × ℕ) :=
  let totalSize := pendingFramesTotalSize frames
  if memoryPoolPageSize < totalSize then none
  else some ((repackLoop (List.replicate memoryPoolPageSize 0) 0 frames).1.take totalSize,
    totalSize)

/-- The concatenation, in source order, of the pending fragments' bytes. -/
def concatFragments (frames : List PendingFrame) : List ℕ :=
  frames.foldr (fun f acc => fragmentBytes f ++ acc) []


/-- Modelled from the spec: the sentinel `undefinedTimeframeId` carried by
pages before a timeframe is assigned (DataBlock.h is not in the sources;
the spec describes `timeframeId` as 1-based with a sentinel before
assignment). -/
def undefinedTimeframeId : ℕ := 0

/-- Per-equipment configuration and ambient values read by
`ReadoutEquipment::threadCallback` while stamping one block:
`equipmentIdDef` is `some id` when `ptr->id != undefinedEquipmentId`,
`currentTimeframe` is the software-clock fallback, `occRunNumber` the run
number, `disableOutput` the testing switch. -/
structure EqConfig where
  disableOutput : Bool
  equipmentIdDef : Option ℕ
  runNumber : ℕ
  currentTimeframe : ℕ
  deriving DecidableEq

/-- What one iteration of `threadCallback` reads from the clocks and the
output FIFO: the configured `readoutRate`, the elapsed time
`clk0.getTime()`, whether the rate clock reached its tick
(`clk.isTimeout()`), and the free slots of the output FIFO. -/
structure IterEnv where
  readoutRate : ℚ
  elapsed : ℚ
  clkIsTimeout : Bool
  freeSlots : ℕ
  prepared : List DataBlockHeader

/-- The per-equipment counters used by the loop: `currentBlockId` (reset
to 0 by `ReadoutEquipment::start`), and the `nBlocksOut`, `nThrottle` and
`nOutputFull` equipment statistics. -/
structure EqState where
  currentBlockId : ℕ
  nBlocksOut : ℕ
  nThrottle : ℕ
  nOutputFull : ℕ
  deriving DecidableEq

/-- The state `ReadoutEquipment::start` leaves the loop counters in. -/
def equipmentStartState : EqState := ⟨0, 0, 0, 0⟩

/-- The header stamping done on each block obtained from `getNextBlock()`
(unnamed part\_002, lines 320-336): equipment id if defined, then
`blockId := ++currentBlockId`, then the software-clock timeframe id if
none set, then the run number. -/
def stampBlock (cfg : EqConfig) (newBlockId : ℕ) (b : DataBlockHeader) : DataBlockHeader :=
  let b :=
    match cfg.equipmentIdDef with
    | some e => { b with equipmentId := e }
    | none => b
  let b := { b with blockId := newBlockId }
  let b :=
    if b.timeframeId = undefinedTimeframeId then
      { b with timeframeId := cfg.currentTimeframe }
    else b
  { b with runNumber := cfg.runNumber }

/-- Result of the inner block loop of `threadCallback`. -/
structure BlockLoopRes where
  currentBlockId : ℕ
  nOutputFull : ℕ
  nPushedOut : ℕ
  emitted : List DataBlockHeader
  remaining : List DataBlockHeader

/-- The inner block loop of `threadCallback` (unnamed part\_002, lines
293-359): up to `budget` times, break when the output FIFO is full
(counting `nOutputFull`) or `getNextBlock()` has nothing (the `pending`
list models the blocks the subclass has prepared); otherwise stamp the
block and, unless `disableOutput` is set, push it to the output FIFO. -/
def blockLoop (cfg : EqConfig) :
    ℕ → ℕ → ℕ → ℕ → List DataBlockHeader → BlockLoopRes
  | 0, _, c, nof, pending => ⟨c, nof, 0, [], pending⟩
  | _ + 1, 0, c, nof, pending => ⟨c, nof + 1, 0, [], pending⟩
  | budget + 1, freeSlots + 1, c, nof, pending =>
    match pending with
    | [] => ⟨c, nof, 0, [], []⟩
    | b :: rest =>
      let b2 := stampBlock cfg (c + 1) b
      let r := blockLoop cfg budget
        (if cfg.disableOutput then freeSlots + 1 else freeSlots) (c + 1) nof rest
      ⟨r.currentBlockId, r.nOutputFull, r.nPushedOut + 1,
        if cfg.disableOutput then r.emitted else b2 :: r.emitted, r.remaining⟩

/-- Model of `maxBlocksToRead` as computed by `threadCallback` (unnamed part\_002,
lines 264-271): 1024 when no rate limit, else the truncated-to-int value
of `readoutRate * clk0.getTime() - nBlocksOut`. -/
def maxBlocksToRead (env : IterEnv) (s : EqState) : ℤ :=
  if 0 < env.readoutRate then
    ratTrunc (env.readoutRate * env.elapsed - (s.nBlocksOut : ℚ))
  else 1024

/-- Result of one `threadCallback` iteration. -/
structure IterRes where
  state : EqState
  emitted : List DataBlockHeader
  remaining : List DataBlockHeader

/-- One iteration of `ReadoutEquipment::threadCallback` (unnamed
part\_002, lines 261-401): with a positive rate, when the rate clock has
not reached its tick, at least one block was already emitted and the
budget is exhausted, count one `nThrottle` and yield; otherwise run the
inner block loop and accumulate `nBlocksOut`. -/
def threadCallbackIteration (cfg : EqConfig) (env : IterEnv) (s : EqState)
    (pending : List DataBlockHeader) : IterRes :=
  if 0 < env.readoutRate ∧ env.clkIsTimeout = false ∧ s.nBlocksOut ≠ 0 ∧
      maxBlocksToRead env s ≤ 0 then
    ⟨{ s with nThrottle := s.nThrottle + 1 }, [], pending⟩
  else
    let r := blockLoop cfg (maxBlocksToRead env s).toNat env.freeSlots
      s.currentBlockId s.nOutputFull pending
    ⟨{ s with
        currentBlockId := r.currentBlockId,
        nOutputFull := r.nOutputFull,
        nBlocksOut := s.nBlocksOut + r.nPushedOut }, r.emitted, r.remaining⟩

/-- A whole run of the readout thread between `start` and `stop`: the
iterations of `threadCallback`, each under the clock and FIFO conditions
listed in `envs`, consuming the pending blocks in order; the blocks that
the iteration's trailing `prepareBlocks()` call makes available are
appended for the following iterations.  Returns the final counters and
the emitted pages in emission order. -/
def runLoop (cfg : EqConfig) :
    List IterEnv → EqState → List DataBlockHeader → EqState × List DataBlockHeader
  | [], s, _ => (s, [])
  | env :: envs, s, pending =>
    let r := threadCallbackIteration cfg env s pending
    let rest := runLoop cfg envs r.state (r.remaining ++ env.prepared)
    (rest.1, r.emitted ++ rest.2)


/-- A per-timeframe buffer: the datasets accumulated for one timeframe
(`wThreadInput`, a vector of `DataSetReference`). -/
abbrev TimeframeBuffer := List (List DataBlockHeader)

/-- The `ConsumerFMQchannel` state driven by
`processForDataDistribution` in threaded mode: the timeframe being
accumulated, its buffer, the round-robin write index, the push error
counter and the worker input FIFOs (queue `i` of worker `i`, front =
oldest). -/
structure DispatcherState where
  currentTimeframeId : ℕ
  currentTimeframeBuffer : Option TimeframeBuffer
  wThreadIxWrite : ℕ
  totalPushError : ℕ
  workerInputs : ℕ → List TimeframeBuffer

/-- Pointwise update of an indexed family of queues. -/
def qset {α : Type} (qs : ℕ → List α) (i : ℕ) (v : List α) : ℕ → List α :=
  fun j => if j = i then v else qs j

/-- The `pushCurrentTimeframe` lambda of
`ConsumerFMQchannel::processForDataDistribution` (ConsumerFMQchannel.cxx,
lines 1077-1097): push the accumulated buffer, if any, to the input FIFO
of worker `wThreadIxWrite` (error counter and -1 when that FIFO is full),
then advance the write index round-robin (`wThreadIxWrite++`, reset to 0
at `nwThreads`). -/
def pushCurrentTimeframe (nwThreads wThreadFifoSize : ℕ) (st : DispatcherState) :
    DispatcherState × ℤ :=
  match st.currentTimeframeBuffer with
  | none => (st, 0)
  | some buf =>
    if wThreadFifoSize ≤ (st.workerInputs st.wThreadIxWrite).length then
      ({ st with totalPushError := st.totalPushError + 1 }, -1)
    else
      ({ st with
          currentTimeframeBuffer := none,
          workerInputs := qset st.workerInputs st.wThreadIxWrite
            (st.workerInputs st.wThreadIxWrite ++ [buf]),
          wThreadIxWrite :=
            if st.wThreadIxWrite + 1 = nwThreads then 0 else st.wThreadIxWrite + 1 }, 0)

/-- Model of `ConsumerFMQchannel::processForDataDistribution` in threaded mode
(ConsumerFMQchannel.cxx, lines 1099-1142): empty datasets are ignored; a
dataset whose first and last blocks disagree on `timeframeId` counts one
`totalPushError` and is rejected with -1; a new timeframe id flushes the
buffer of the previous one and opens a fresh buffer; the dataset is
appended to the current buffer, which is flushed at once when the last
block carries `flagEndOfTimeframe`. -/
def processForDataDistribution (nwThreads wThreadFifoSize : ℕ) (st : DispatcherState)
    (bc : List DataBlockHeader) : DispatcherState × ℤ :=
  match bc with
  | [] => (st, 0)
  | b1 :: _ =>
    let b2 := bc.getLastD b1
    if b1.timeframeId ≠ b2.timeframeId then
      ({ st with totalPushError := st.totalPushError + 1 }, -1)
    else
      let st1 :=
        if b1.timeframeId ≠ st.currentTimeframeId then
          let stp := (pushCurrentTimeframe nwThreads wThreadFifoSize st).1
          { stp with currentTimeframeBuffer := some [], currentTimeframeId := b1.timeframeId }
        else st
      match st1.currentTimeframeBuffer with
      | none => ({ st1 with totalPushError := st1.totalPushError + 1 }, -1)
      | some buf =>
        let st2 := { st1 with currentTimeframeBuffer := some (buf ++ [bc]) }
        if b2.flagEndOfTimeframe then
          ((pushCurrentTimeframe nwThreads wThreadFifoSize st2).1, 0)
        else (st2, 0)

/-- The round-robin distribution of timeframe buffers over `n` worker
input FIFOs performed by repeated pushes (write index advancing by one
mod `n` after each push, starting at `start`). -/
def rrDistribute {α : Type} (n : ℕ) : ℕ → List α → (ℕ → List α)
  | _, [] => fun _ => []
  | start, x :: xs =>
    let qs := rrDistribute n ((start + 1) % n) xs
    qset qs start (x :: qs start)

/-- The sender loop of `ConsumerFMQchannel::senderThreadLoop`
(ConsumerFMQchannel.cxx, lines 641-679): pop one formatted timeframe from
worker `thIx`'s output FIFO, then `thIx++` (reset to 0 at `nwThreads`);
`k` bounds the number of pops.  An empty queue models the `pop` retry
(nothing further is consumed in this abstraction). -/
def rrCollect {α : Type} (n : ℕ) : ℕ → (ℕ → List α) → ℕ → List α
  | _, _, 0 => []
  | start, qs, k + 1 =>
    match qs start with
    | [] => []
    | x :: rest => x :: rrCollect n ((start + 1) % n) (qset qs start rest) k

end Readout

namespace Readout

/-- Claim C4: in RDH-derived timeframe identification the first heartbeat
orbit observed is recorded as the first orbit, every orbit `o` observed
afterwards maps to `tfId = 1 + (o - firstOrbit) / TFperiod` (integer
division), the first observed orbit itself maps to `tfId = 1`, and
`TFperiod` defaults to 256 orbits. -/
theorem C4_timeframe_from_orbit (p : ℕ) (s : TfIdState) (o : ℕ)
    (_hp : 0 < p) (ho : o < 2 ^ 32)
    (hf : s.firstTimeframeHbOrbitBegin < 2 ^ 32) :
    (s.isDefinedFirstTimeframeHbOrbitBegin = false →
      (getTimeframeFromOrbit p s o).1.firstTimeframeHbOrbitBegin = o ∧
      (getTimeframeFromOrbit p s o).2 = 1)
    ∧ (s.isDefinedFirstTimeframeHbOrbitBegin = true →
        s.firstTimeframeHbOrbitBegin ≤ o →
        (getTimeframeFromOrbit p s o).2 = 1 + (o - s.firstTimeframeHbOrbitBegin) / p)
    ∧ cfgTFperiodDefault = 256 := by
  refine ⟨?_, ?_, rfl⟩
  · intro h
    have hdiff : (o + 2 ^ 32 - o) % 2 ^ 32 = 0 := by
      have : o + 2 ^ 32 - o = 2 ^ 32 := by omega
      simp [this]
    constructor
    · simp [getTimeframeFromOrbit, h]
      split <;> rfl
    · simp [getTimeframeFromOrbit, h, hdiff]
  · intro h hle
    have hdiff : (o + 2 ^ 32 - s.firstTimeframeHbOrbitBegin) % 2 ^ 32
        = o - s.firstTimeframeHbOrbitBegin := by
      have h1 : o + 2 ^ 32 - s.firstTimeframeHbOrbitBegin
          = (o - s.firstTimeframeHbOrbitBegin) + 2 ^ 32 := by omega
      rw [h1, Nat.add_mod_right, Nat.mod_eq_of_lt (by omega)]
    norm_num at hdiff
    simp [getTimeframeFromOrbit, h, hdiff]

/-- Witness for C4 at concrete inputs: period 256, first orbit 100
already recorded, orbit 612 gives timeframe id 1 + 512/256 = 3; a fresh
state observing orbit 7 gives timeframe id 1. -/
theorem C4_timeframe_from_orbit_witness :
    (0 < 256 ∧ (612 : ℕ) < 2 ^ 32 ∧ (100 : ℕ) < 2 ^ 32) ∧
    (getTimeframeFromOrbit 256 ⟨true, 100, 1, 1⟩ 612).2 = 1 + (612 - 100) / 256 ∧
    (getTimeframeFromOrbit 256 ⟨false, 0, 0, 0⟩ 7).2 = 1 := by
  refine ⟨⟨by decide, by norm_num, by norm_num⟩, ?_, ?_⟩
  · exact (C4_timeframe_from_orbit 256 ⟨true, 100, 1, 1⟩ 612 (by decide) (by norm_num)
      (by norm_num)).2.1 rfl (by norm_num)
  · exact ((C4_timeframe_from_orbit 256 ⟨false, 0, 0, 0⟩ 7 (by decide) (by norm_num)
      (by norm_num)).1 rfl).2

/-- Claim C10: the byte-size parser scales a number with suffix k/M/G/T/P
by the matching power of 1024 (fractional values allowed, result truncated),
returns a bare number truncated, and returns 0 for any other input,
including a number followed by an unrecognized suffix. -/
theorem C10_getNumberOfBytesFromString :
    (getNumberOfBytesFromString .fail = 0)
    ∧ (∀ v, getNumberOfBytesFromString (.numOnly v) = ratTrunc v)
    ∧ (∀ v, getNumberOfBytesFromString (.numSuffix v 'k') = ratTrunc (v * 1024 ^ 1))
    ∧ (∀ v, getNumberOfBytesFromString (.numSuffix v 'M') = ratTrunc (v * 1024 ^ 2))
    ∧ (∀ v, getNumberOfBytesFromString (.numSuffix v 'G') = ratTrunc (v * 1024 ^ 3))
    ∧ (∀ v, getNumberOfBytesFromString (.numSuffix v 'T') = ratTrunc (v * 1024 ^ 4))
    ∧ (∀ v, getNumberOfBytesFromString (.numSuffix v 'P') = ratTrunc (v * 1024 ^ 5))
    ∧ (∀ v c, c ∉ (['k', 'M', 'G', 'T', 'P'] : List Char) →
        getNumberOfBytesFromString (.numSuffix v c) = 0) := by
  refine ⟨rfl, fun v => rfl,
    fun v => by simp +decide [getNumberOfBytesFromString, ratTrunc]; try ring_nf,
    fun v => by simp +decide [getNumberOfBytesFromString, ratTrunc]; try ring_nf,
    fun v => by simp +decide [getNumberOfBytesFromString, ratTrunc]; try ring_nf,
    fun v => by simp +decide [getNumberOfBytesFromString, ratTrunc]; try ring_nf,
    fun v => by simp +decide [getNumberOfBytesFromString, ratTrunc]; try ring_nf, ?_⟩
  intro v c hc
  simp only [List.mem_cons, List.not_mem_nil, or_false, not_or] at hc
  obtain ⟨h1, h2, h3, h4, h5⟩ := hc
  simp [getNumberOfBytesFromString, h1, h2, h3, h4, h5]

/-- Witness for C10: the suffix `'B'` (as in "1.5B") is not recognized and
the parser yields 0 rather than an error. -/
theorem C10_getNumberOfBytesFromString_witness :
    ('B' ∉ (['k', 'M', 'G', 'T', 'P'] : List Char)) ∧
    getNumberOfBytesFromString (.numSuffix (3 / 2) 'B') = 0 :=
  ⟨by decide, C10_getNumberOfBytesFromString.2.2.2.2.2.2.2 (3 / 2) 'B' (by decide)⟩


/-- Helper: processing the tail of a dataset (`isFirst == false`) in
`DDformatMessage` can only touch the `lastTFMessage` field of the STF
header. -/
theorem ddHeaderLoop_false_fields (bs : List DataBlockHeader) :
    ∀ stf : SubTimeframe,
      ((ddHeaderLoop stf false bs).timeframeId = stf.timeframeId
      ∧ (ddHeaderLoop stf false bs).runNumber = stf.runNumber
      ∧ (ddHeaderLoop stf false bs).systemId = stf.systemId
      ∧ (ddHeaderLoop stf false bs).feeId = stf.feeId
      ∧ (ddHeaderLoop stf false bs).equipmentId = stf.equipmentId
      ∧ (ddHeaderLoop stf false bs).linkId = stf.linkId
      ∧ (ddHeaderLoop stf false bs).timeframeOrbitFirst = stf.timeframeOrbitFirst
      ∧ (ddHeaderLoop stf false bs).timeframeOrbitLast = stf.timeframeOrbitLast
      ∧ (ddHeaderLoop stf false bs).isRdhFormat = stf.isRdhFormat) := by
  induction bs with
  | nil => intro stf; simp [ddHeaderLoop]
  | cons b bs ih =>
    intro stf
    simp only [ddHeaderLoop]
    by_cases h : b.flagEndOfTimeframe <;> simp [h, ih]

/-- Helper: the `lastTFMessage` flag after processing the tail of a
dataset is 1 exactly when it already was 1 or some tail block carries
`flagEndOfTimeframe`. -/
theorem ddHeaderLoop_false_lastTFMessage (bs : List DataBlockHeader) :
    ∀ stf : SubTimeframe,
      ((ddHeaderLoop stf false bs).lastTFMessage = 1 ↔
        stf.lastTFMessage = 1 ∨ ∃ x ∈ bs, x.flagEndOfTimeframe = true) := by
  induction bs with
  | nil => intro stf; simp [ddHeaderLoop]
  | cons b bs ih =>
    intro stf
    simp only [ddHeaderLoop]
    by_cases h : b.flagEndOfTimeframe <;> simp [h, ih]


/-- Counterexample to claim C2 as stated: in StfSuperpage mode the
`lastTFMessage` flag is taken from `bc->back()` only.  A two-block dataset
whose first block carries `flagEndOfTimeframe` and whose last block does
not yields `lastTFMessage = 0`, so the flag is not "1 iff some block of the
dataset has flagEndOfTimeframe set" in that mode. -/
theorem C2_counterexample :
    ¬ ((stfSuperpageHeader
          ⟨1, 100, 5, 2, 3, 4, 7, 10, 20, 42, true, true⟩
          [⟨2, 100, 5, 2, 3, 4, 7, 10, 20, 42, false, true⟩]).lastTFMessage = 1 ↔
        ∃ x ∈ ([⟨1, 100, 5, 2, 3, 4, 7, 10, 20, 42, true, true⟩,
                ⟨2, 100, 5, 2, 3, 4, 7, 10, 20, 42, false, true⟩] : List DataBlockHeader),
          x.flagEndOfTimeframe = true) := by
  decide

/-- Claim C2, amended: for every non-empty dataset the STF header carries
timeframeId, runNumber, systemId, feeId, equipmentId, linkId,
timeframeOrbitFirst and timeframeOrbitLast copied from the first DataBlock
in both modes; `lastTFMessage` is 1 iff some block of the dataset has
`flagEndOfTimeframe` in STF/HBF mode, and 1 iff the *last* block has
`flagEndOfTimeframe` in StfSuperpage mode. -/
theorem C2_stf_header_fields (b : DataBlockHeader) (bs : List DataBlockHeader) :
    ((DDformatStfHeader (b :: bs)).timeframeId = b.timeframeId
      ∧ (DDformatStfHeader (b :: bs)).runNumber = b.runNumber
      ∧ (DDformatStfHeader (b :: bs)).systemId = b.systemId
      ∧ (DDformatStfHeader (b :: bs)).feeId = b.feeId
      ∧ (DDformatStfHeader (b :: bs)).equipmentId = b.equipmentId
      ∧ (DDformatStfHeader (b :: bs)).linkId = b.linkId
      ∧ (DDformatStfHeader (b :: bs)).timeframeOrbitFirst = b.timeframeOrbitFirst
      ∧ (DDformatStfHeader (b :: bs)).timeframeOrbitLast = b.timeframeOrbitLast)
    ∧ ((DDformatStfHeader (b :: bs)).lastTFMessage = 1 ↔
        ∃ x ∈ b :: bs, x.flagEndOfTimeframe = true)
    ∧ ((stfSuperpageHeader b bs).timeframeId = b.timeframeId
      ∧ (stfSuperpageHeader b bs).runNumber = b.runNumber
      ∧ (stfSuperpageHeader b bs).systemId = b.systemId
      ∧ (stfSuperpageHeader b bs).feeId = b.feeId
      ∧ (stfSuperpageHeader b bs).equipmentId = b.equipmentId
      ∧ (stfSuperpageHeader b bs).linkId = b.linkId
      ∧ (stfSuperpageHeader b bs).timeframeOrbitFirst = b.timeframeOrbitFirst
      ∧ (stfSuperpageHeader b bs).timeframeOrbitLast = b.timeframeOrbitLast)
    ∧ ((stfSuperpageHeader b bs).lastTFMessage = 1 ↔
        ((b :: bs).getLastD b).flagEndOfTimeframe = true) := by
  refine ⟨?_, ?_, ?_, ?_⟩
  · have h := ddHeaderLoop_false_fields bs
    simp only [DDformatStfHeader, ddHeaderLoop]
    by_cases hb : b.flagEndOfTimeframe <;> simp [hb, h]
  · have h := ddHeaderLoop_false_lastTFMessage bs
    simp only [DDformatStfHeader, ddHeaderLoop]
    by_cases hb : b.flagEndOfTimeframe <;> simp [hb, h, stfhDefaults]
  · by_cases hl : ((b :: bs).getLastD b).flagEndOfTimeframe <;>
      simp [stfSuperpageHeader, hl]
  · by_cases hl : ((b :: bs).getLast?.getD b).flagEndOfTimeframe = true <;>
      simp [stfSuperpageHeader, stfhDefaults, List.getLastD_eq_getLast?, hl]

/-- Claim C9: page accounting is guarded by the `userSpace` magic byte:
with the magic byte not armed both operations are no-ops; the first
reference bumps `pagesPendingFairMQ` and the memory-pending bytes and
records `t0`; the last release decrements them and clears the magic, so
any later increment or decrement on the same block changes nothing. -/
theorem C9_userSpace_magic_guard :
    (∀ now ds s g, s.magic ≠ 0xAA → incDataBlockStats now ds s g = (s, g))
    ∧ (∀ now s g, s.magic ≠ 0xAA → decDataBlockStats now s g = (s, g))
    ∧ (∀ now ds s g, s.magic = 0xAA → s.countRef = 0 →
        (incDataBlockStats now ds s g).2.pagesPendingFairMQ = g.pagesPendingFairMQ + 1
        ∧ (incDataBlockStats now ds s g).2.ddMemoryPendingBytes
            = g.ddMemoryPendingBytes + s.memorySizeAccounted
        ∧ (incDataBlockStats now ds s g).1.t0 = now
        ∧ (incDataBlockStats now ds s g).1.countRef = 1)
    ∧ (∀ now s g, s.magic = 0xAA → s.countRef = 1 →
        (decDataBlockStats now s g).2.pagesPendingFairMQ = g.pagesPendingFairMQ - 1
        ∧ (decDataBlockStats now s g).2.ddMemoryPendingBytes
            = g.ddMemoryPendingBytes - s.memorySizeAccounted
        ∧ (decDataBlockStats now s g).1.magic = 0x00
        ∧ (∀ now2 ds2 g2,
            incDataBlockStats now2 ds2 (decDataBlockStats now s g).1 g2
              = ((decDataBlockStats now s g).1, g2))
        ∧ (∀ now2 g2,
            decDataBlockStats now2 (decDataBlockStats now s g).1 g2
              = ((decDataBlockStats now s g).1, g2))) := by
  refine ⟨?_, ?_, ?_, ?_⟩
  · intro now ds s g h
    simp [incDataBlockStats, h]
  · intro now s g h
    simp [decDataBlockStats, h]
  · intro now ds s g hm h0
    simp [incDataBlockStats, hm, h0]
  · intro now s g hm h1
    have hd : decDataBlockStats now s g
        = ({ s with countRef := 0, magic := 0x00 },
           { g with pagesPendingFairMQ := g.pagesPendingFairMQ - 1,
                    pagesPendingFairMQreleased := g.pagesPendingFairMQreleased + 1,
                    pagesPendingFairMQtime := g.pagesPendingFairMQtime + (now - s.t0),
                    ddPayloadPendingBytes := g.ddPayloadPendingBytes - s.dataSizeAccounted,
                    ddMemoryPendingBytes := g.ddMemoryPendingBytes - s.memorySizeAccounted,
                    notify := g.notify + 1 }) := by
      simp [decDataBlockStats, hm, h1]
    refine ⟨by rw [hd], by rw [hd], by rw [hd], ?_, ?_⟩
    · intro now2 ds2 g2
      rw [hd]
      simp [incDataBlockStats]
    · intro now2 g2
      rw [hd]
      simp [decDataBlockStats]

/-- Witness for C9 at a concrete block: a freshly initialized stats block
is first-referenced (pages pending go from 3 to 4, `t0 = 17`), and a
decrement on a block whose magic is not armed changes nothing. -/
theorem C9_userSpace_magic_guard_witness :
    (((initDataBlockStats ⟨0, 0, 0, 0, 0⟩ 512).magic = 0xAA
        ∧ (initDataBlockStats ⟨0, 0, 0, 0, 0⟩ 512).countRef = 0)
      ∧ (incDataBlockStats 17 100 (initDataBlockStats ⟨0, 0, 0, 0, 0⟩ 512)
          ⟨3, 0, 0, 0, 0, 0⟩).2.pagesPendingFairMQ = 3 + 1
      ∧ (incDataBlockStats 17 100 (initDataBlockStats ⟨0, 0, 0, 0, 0⟩ 512)
          ⟨3, 0, 0, 0, 0, 0⟩).1.t0 = 17)
    ∧ ((⟨0x00, 5, 0, 0, 0⟩ : DataBlockFMQStats).magic ≠ 0xAA
      ∧ decDataBlockStats 9 ⟨0x00, 5, 0, 0, 0⟩ ⟨3, 0, 0, 0, 0, 0⟩
          = (⟨0x00, 5, 0, 0, 0⟩, ⟨3, 0, 0, 0, 0, 0⟩)) := by
  constructor
  · refine ⟨⟨rfl, rfl⟩, ?_, ?_⟩
    · exact (C9_userSpace_magic_guard.2.2.1 17 100 (initDataBlockStats ⟨0, 0, 0, 0, 0⟩ 512)
        ⟨3, 0, 0, 0, 0, 0⟩ rfl rfl).1
    · exact (C9_userSpace_magic_guard.2.2.1 17 100 (initDataBlockStats ⟨0, 0, 0, 0, 0⟩ 512)
        ⟨3, 0, 0, 0, 0, 0⟩ rfl rfl).2.2.1
  · exact ⟨by decide, C9_userSpace_magic_guard.2.1 9 ⟨0x00, 5, 0, 0, 0⟩
      ⟨3, 0, 0, 0, 0, 0⟩ (by decide)⟩


/-- Helper for C5: walking a page whose first RDHs are valid, share the
link id of `r`, are in orbit range and have nonzero `offsetNextPacket`,
and then hitting `r`, valid and out of orbit range, yields exactly one
`rdhCheckStreamErr` increment and never looks at the rest of the page. -/
theorem processRdhCheckLoop_out_of_range (first last : ℕ) (r : Rdh) (rest : List Rdh)
    (hr : r.isValidRdh = true)
    (horb : orbitOutOfRange first last r.triggerOrbit = true) :
    ∀ (pre : List Rdh) (c : RdhCheckStats) (fl : Option ℕ),
      (fl = none ∨ fl = some r.linkId) →
      (∀ x ∈ pre, x.isValidRdh = true ∧ x.linkId = r.linkId ∧
        orbitOutOfRange first last x.triggerOrbit = false ∧ x.offsetNextPacket ≠ 0) →
      processRdhCheckLoop first last fl c (pre ++ r :: rest)
        = { c with statsRdhCheckOk := c.statsRdhCheckOk + (pre.length + 1),
                   statsRdhCheckStreamErr := c.statsRdhCheckStreamErr + 1 } := by
  intro pre
  induction pre with
  | nil =>
    intro c fl hfl _
    rcases hfl with h | h <;>
      subst h <;>
      simp [processRdhCheckLoop, hr, horb]
  | cons x pre ih =>
    intro c fl hfl hpre
    obtain ⟨hxv, hxl, hxo, hxn⟩ := hpre x (by simp)
    have hfl2 : fl.getD x.linkId = r.linkId := by
      rcases hfl with h | h <;> subst h <;> simp [hxl]
    have htail : ∀ y ∈ pre, y.isValidRdh = true ∧ y.linkId = r.linkId ∧
        orbitOutOfRange first last y.triggerOrbit = false ∧ y.offsetNextPacket ≠ 0 :=
      fun y hy => hpre y (by simp [hy])
    have := ih { c with statsRdhCheckOk := c.statsRdhCheckOk + 1 }
      (some (fl.getD x.linkId)) (by rw [hfl2]; right; rfl) htail
    simp only [List.cons_append, processRdhCheckLoop]
    rw [if_neg (by simp [hxv]),
      if_neg (show ¬(fl.getD x.linkId ≠ x.linkId) by
        simp only [ne_eq, not_not]; rw [hfl2, hxl]),
      if_neg (by simp [hxo]), if_neg hxn, List.append_eq, this]
    simp only [List.length_cons]
    congr 1
    omega


/-- Claim C5: with rdhCheck enabled, an RDH whose triggerOrbit falls
outside the page header's orbit range (wrap-aware comparison) increments
`rdhCheckStreamErr` by exactly one and stops parsing of that page: the
result is the same whatever RDHs follow, provided the RDHs before it were
valid, on the same link, in range and chained by nonzero
`offsetNextPacket`. -/
theorem C5_orbit_range_stream_error (first last : ℕ) (c0 : RdhCheckStats)
    (pre rest : List Rdh) (r : Rdh)
    (hpre : ∀ x ∈ pre, x.isValidRdh = true ∧ x.linkId = r.linkId ∧
      orbitOutOfRange first last x.triggerOrbit = false ∧ x.offsetNextPacket ≠ 0)
    (hr : r.isValidRdh = true)
    (horb : orbitOutOfRange first last r.triggerOrbit = true) :
    processRdhCheckLoop first last none c0 (pre ++ r :: rest)
      = processRdhCheckLoop first last none c0 (pre ++ [r])
    ∧ (processRdhCheckLoop first last none c0 (pre ++ r :: rest)).statsRdhCheckStreamErr
      = c0.statsRdhCheckStreamErr + 1 := by
  have h1 := processRdhCheckLoop_out_of_range first last r rest hr horb pre c0 none
    (Or.inl rfl) hpre
  have h2 := processRdhCheckLoop_out_of_range first last r [] hr horb pre c0 none
    (Or.inl rfl) hpre
  exact ⟨by rw [h1, h2], by rw [h1]⟩

/-- Witness for C5: a page with a valid in-range RDH on link 3 (orbit 10,
range [5, 20]), then a valid RDH with orbit 50 outside the range, then one
more RDH that is never examined; stream-error count goes from 0 to 1. -/
theorem C5_orbit_range_stream_error_witness :
    ((∀ x ∈ ([⟨true, 3, 10, 64⟩] : List Rdh), x.isValidRdh = true ∧ x.linkId = 3 ∧
        orbitOutOfRange 5 20 x.triggerOrbit = false ∧ x.offsetNextPacket ≠ 0)
      ∧ (⟨true, 3, 50, 64⟩ : Rdh).isValidRdh = true
      ∧ orbitOutOfRange 5 20 (⟨true, 3, 50, 64⟩ : Rdh).triggerOrbit = true)
    ∧ (processRdhCheckLoop 5 20 none ⟨0, 0, 0⟩
        ([⟨true, 3, 10, 64⟩] ++ (⟨true, 3, 50, 64⟩ : Rdh) :: [⟨true, 3, 11, 0⟩])).statsRdhCheckStreamErr
      = 0 + 1 := by
  refine ⟨⟨by decide, rfl, by decide⟩, ?_⟩
  exact (C5_orbit_range_stream_error 5 20 ⟨0, 0, 0⟩ [⟨true, 3, 10, 64⟩] [⟨true, 3, 11, 0⟩]
    ⟨true, 3, 50, 64⟩ (by decide) rfl (by decide)).2


/-- Helper: shifting the accumulator out of the fragment-length sum. -/
theorem foldl_hblength_shift (fs : List PendingFrame) :
    ∀ a : ℕ, fs.foldl (fun t f => t + f.HBlength) a
      = a + fs.foldl (fun t f => t + f.HBlength) 0 := by
  induction fs with
  | nil => intro a; simp
  | cons g gs ih =>
    intro a
    simp only [List.foldl_cons]
    rw [ih (a + g.HBlength), ih (0 + g.HBlength)]
    omega

/-- Helper: the total size of `f :: fs` is `f.HBlength` plus the total
size of `fs`. -/
theorem pendingFramesTotalSize_cons (f : PendingFrame) (fs : List PendingFrame) :
    pendingFramesTotalSize (f :: fs) = f.HBlength + pendingFramesTotalSize fs := by
  simp only [pendingFramesTotalSize, List.foldl_cons]
  rw [foldl_hblength_shift fs (0 + f.HBlength)]
  omega

/-- Helper: an in-bounds fragment contributes exactly `HBlength` bytes. -/
theorem fragmentBytes_length (f : PendingFrame)
    (h : f.HBstart + f.HBlength ≤ f.data.length) :
    (fragmentBytes f).length = f.HBlength := by
  simp [fragmentBytes]
  omega

/-- Helper: the concatenated fragments have exactly `totalSize` bytes. -/
theorem concatFragments_length (frames : List PendingFrame)
    (hin : ∀ f ∈ frames, f.HBstart + f.HBlength ≤ f.data.length) :
    (concatFragments frames).length = pendingFramesTotalSize frames := by
  induction frames with
  | nil => simp [concatFragments, pendingFramesTotalSize]
  | cons f fs ih =>
    have h1 := fragmentBytes_length f (hin f (by simp))
    have h2 := ih (fun g hg => hin g (by simp [hg]))
    show (fragmentBytes f ++ concatFragments fs).length = _
    rw [pendingFramesTotalSize_cons]
    simp [h1, h2]

/-- Helper for C1: running the copy loop fills the scratch page with the
concatenation of the fragments at offset `ix`, leaving the rest of the
page untouched. -/
theorem repackLoop_bytes :
    ∀ (frames : List PendingFrame) (buf : List ℕ) (ix : ℕ),
      (∀ f ∈ frames, f.HBstart + f.HBlength ≤ f.data.length) →
      ix + pendingFramesTotalSize frames ≤ buf.length →
      (repackLoop buf ix frames).1
        = buf.take ix ++ concatFragments frames ++
            buf.drop (ix + pendingFramesTotalSize frames) := by
  intro frames
  induction frames with
  | nil =>
    intro buf ix _ _
    simp [repackLoop, concatFragments, pendingFramesTotalSize]
  | cons f fs ih =>
    intro buf ix hin hfit
    have hT := pendingFramesTotalSize_cons f fs
    have hf := hin f (by simp)
    have hfrag : (fragmentBytes f).length = f.HBlength := fragmentBytes_length f hf
    have hixle : ix + f.HBlength ≤ buf.length := by omega
    have hAfrag : (buf.take ix ++ fragmentBytes f).length = ix + f.HBlength := by
      simp [hfrag]
      omega
    have e1 : memcpy buf ix f.data f.HBstart f.HBlength
        = (buf.take ix ++ fragmentBytes f) ++ buf.drop (ix + f.HBlength) := by
      simp [memcpy, fragmentBytes]
    have hmemlen : (memcpy buf ix f.data f.HBstart f.HBlength).length = buf.length := by
      rw [e1]
      simp [hfrag]
      omega
    have hlen2 : ix + f.HBlength + pendingFramesTotalSize fs
        ≤ (memcpy buf ix f.data f.HBstart f.HBlength).length := by
      rw [hmemlen]; omega
    simp only [repackLoop]
    rw [ih (memcpy buf ix f.data f.HBstart f.HBlength) (ix + f.HBlength)
      (fun g hg => hin g (by simp [hg])) hlen2]
    rw [e1]
    have e2 : ((buf.take ix ++ fragmentBytes f) ++ buf.drop (ix + f.HBlength)).take
        (ix + f.HBlength) = buf.take ix ++ fragmentBytes f := List.take_left' hAfrag
    have e3 : ((buf.take ix ++ fragmentBytes f) ++ buf.drop (ix + f.HBlength)).drop
        (ix + f.HBlength + pendingFramesTotalSize fs)
        = buf.drop (ix + f.HBlength + pendingFramesTotalSize fs) := by
      rw [show ix + f.HBlength + pendingFramesTotalSize fs
          = (buf.take ix ++ fragmentBytes f).length + pendingFramesTotalSize fs from by
        rw [hAfrag]]
      rw [← List.drop_drop, List.drop_left' rfl, List.drop_drop, hAfrag]
    rw [e2, e3, hT]
    show (buf.take ix ++ fragmentBytes f) ++ concatFragments fs ++ _
      = buf.take ix ++ (fragmentBytes f ++ concatFragments fs) ++ _
    rw [show ix + (f.HBlength + pendingFramesTotalSize fs)
        = ix + f.HBlength + pendingFramesTotalSize fs from by omega]
    simp [List.append_assoc]

/-- Claim C1: in the STF/HBF dispatcher, an HBF spanning multiple source
pages is repacked into one part whose bytes are exactly the concatenation,
in source order, of the fragments, and whose size is the sum of the
fragment lengths. -/
theorem C1_repack_concatenation (memoryPoolPageSize : ℕ) (frames : List PendingFrame)
    (_hmulti : 2 ≤ frames.length)
    (hin : ∀ f ∈ frames, f.HBstart + f.HBlength ≤ f.data.length)
    (hfit : pendingFramesTotalSize frames ≤ memoryPoolPageSize) :
    pendingFramesCollectRepack memoryPoolPageSize frames
      = some (concatFragments frames, pendingFramesTotalSize frames) := by
  unfold pendingFramesCollectRepack
  rw [if_neg (by omega)]
  congr 2
  rw [repackLoop_bytes frames (List.replicate memoryPoolPageSize 0) 0 hin
    (by simp; omega)]
  simp only [List.take_zero, List.nil_append, Nat.zero_add]
  exact List.take_left' (concatFragments_length frames hin)

/-- Witness for C1: the fragments `[1,2,3,4][1..3)` and `[5,6,7][0..3)`
repack, on a 10-byte scratch page, into the 5-byte part `[2,3,5,6,7]`. -/
theorem C1_repack_concatenation_witness :
    (2 ≤ ([⟨[1, 2, 3, 4], 1, 2⟩, ⟨[5, 6, 7], 0, 3⟩] : List PendingFrame).length
      ∧ (∀ f ∈ ([⟨[1, 2, 3, 4], 1, 2⟩, ⟨[5, 6, 7], 0, 3⟩] : List PendingFrame),
          f.HBstart + f.HBlength ≤ f.data.length)
      ∧ pendingFramesTotalSize [⟨[1, 2, 3, 4], 1, 2⟩, ⟨[5, 6, 7], 0, 3⟩] ≤ 10)
    ∧ pendingFramesCollectRepack 10 [⟨[1, 2, 3, 4], 1, 2⟩, ⟨[5, 6, 7], 0, 3⟩]
      = some (concatFragments [⟨[1, 2, 3, 4], 1, 2⟩, ⟨[5, 6, 7], 0, 3⟩],
              pendingFramesTotalSize [⟨[1, 2, 3, 4], 1, 2⟩, ⟨[5, 6, 7], 0, 3⟩]) :=
  ⟨⟨by decide, by decide, by decide⟩,
    C1_repack_concatenation 10 [⟨[1, 2, 3, 4], 1, 2⟩, ⟨[5, 6, 7], 0, 3⟩]
      (by decide) (by decide) (by decide)⟩


/-- Helper: stamping writes `blockId` exactly. -/
theorem stampBlock_blockId (cfg : EqConfig) (i : ℕ) (b : DataBlockHeader) :
    (stampBlock cfg i b).blockId = i := by
  unfold stampBlock
  cases cfg.equipmentIdDef <;> simp <;> split <;> rfl

/-- Helper: `range'` concatenation with unit step. -/
theorem range'_append_one (s m n : ℕ) :
    List.range' s m ++ List.range' (s + m) n = List.range' s (m + n) := by
  have h := List.range'_append s m n 1
  rw [Nat.add_comm m n, show s + m = s + 1 * m from by omega]
  exact h

/-- Helper for C7: with output enabled, the inner block loop starting from
block counter `c` emits pages whose `blockId`s are exactly
`c+1, c+2, ...`, and leaves the counter advanced by the number emitted. -/
theorem blockLoop_spec (cfg : EqConfig) (hout : cfg.disableOutput = false) :
    ∀ (budget freeSlots c nof : ℕ) (pending : List DataBlockHeader),
      ((blockLoop cfg budget freeSlots c nof pending).emitted.map DataBlockHeader.blockId
        = List.range' (c + 1) (blockLoop cfg budget freeSlots c nof pending).emitted.length)
      ∧ (blockLoop cfg budget freeSlots c nof pending).currentBlockId
        = c + (blockLoop cfg budget freeSlots c nof pending).emitted.length := by
  intro budget
  induction budget with
  | zero =>
    intro freeSlots c nof pending
    simp [blockLoop]
  | succ k ih =>
    intro freeSlots c nof pending
    cases freeSlots with
    | zero => simp [blockLoop]
    | succ fs =>
      cases pending with
      | nil => simp [blockLoop]
      | cons b rest =>
        obtain ⟨h1, h2⟩ := ih fs (c + 1) nof rest
        constructor
        · simp only [blockLoop, hout, Bool.false_eq_true, if_false, List.map_cons,
            stampBlock_blockId, List.length_cons, h1]
          rw [List.range'_succ]
        · simp only [blockLoop, hout, Bool.false_eq_true, if_false, List.length_cons]
          omega

/-- Helper for C7: one iteration either throttles (emitting nothing) or
emits pages with consecutive `blockId`s continuing from the counter. -/
theorem threadCallbackIteration_spec (cfg : EqConfig) (hout : cfg.disableOutput = false)
    (env : IterEnv) (s : EqState) (pending : List DataBlockHeader) :
    ((threadCallbackIteration cfg env s pending).emitted.map DataBlockHeader.blockId
      = List.range' (s.currentBlockId + 1)
          (threadCallbackIteration cfg env s pending).emitted.length)
    ∧ (threadCallbackIteration cfg env s pending).state.currentBlockId
      = s.currentBlockId + (threadCallbackIteration cfg env s pending).emitted.length := by
  unfold threadCallbackIteration
  split
  · simp
  · have h := blockLoop_spec cfg hout (maxBlocksToRead env s).toNat env.freeSlots
      s.currentBlockId s.nOutputFull pending
    exact ⟨h.1, h.2⟩

/-- Helper for C7: over a whole run the emitted `blockId`s continue the
counter consecutively. -/
theorem runLoop_spec (cfg : EqConfig) (hout : cfg.disableOutput = false) :
    ∀ (envs : List IterEnv) (s : EqState) (pending : List DataBlockHeader),
      ((runLoop cfg envs s pending).2.map DataBlockHeader.blockId
        = List.range' (s.currentBlockId + 1) (runLoop cfg envs s pending).2.length)
      ∧ (runLoop cfg envs s pending).1.currentBlockId
        = s.currentBlockId + (runLoop cfg envs s pending).2.length := by
  intro envs
  induction envs with
  | nil =>
    intro s pending
    simp [runLoop]
  | cons env envs ih =>
    intro s pending
    obtain ⟨h1, h2⟩ := threadCallbackIteration_spec cfg hout env s pending
    obtain ⟨h3, h4⟩ := ih (threadCallbackIteration cfg env s pending).state
      ((threadCallbackIteration cfg env s pending).remaining ++ env.prepared)
    constructor
    · simp only [runLoop, List.map_append, List.length_append, h1, h3, h2]
      rw [show s.currentBlockId + (threadCallbackIteration cfg env s pending).emitted.length + 1
          = (s.currentBlockId + 1) + (threadCallbackIteration cfg env s pending).emitted.length
        from by omega]
      exact range'_append_one _ _ _
    · simp only [runLoop, List.length_append]
      omega

/-- Claim C7: over one equipment run (counter reset to 0 at start, output
enabled), the `blockId` values stamped on the emitted pages form the
sequence 1, 2, 3, ... in emission order: the counter is incremented by one
before being stamped on each page obtained from `getNextBlock`. -/
theorem C7_blockId_sequence (cfg : EqConfig) (envs : List IterEnv)
    (pending : List DataBlockHeader) (hout : cfg.disableOutput = false) :
    (runLoop cfg envs equipmentStartState pending).2.map DataBlockHeader.blockId
      = List.range' 1 (runLoop cfg envs equipmentStartState pending).2.length := by
  have h := (runLoop_spec cfg hout envs equipmentStartState pending).1
  simpa [equipmentStartState] using h

/-- Witness for C7: a run with one unlimited-rate iteration over two
prepared blocks, output enabled. -/
theorem C7_blockId_sequence_witness :
    ((⟨false, some 7, 42, 3⟩ : EqConfig).disableOutput = false)
    ∧ (runLoop ⟨false, some 7, 42, 3⟩ [⟨-1, 0, true, 5, []⟩] equipmentStartState
        [⟨0, 96, 0, 2, 3, 4, 1, 0, 0, 0, false, true⟩,
         ⟨0, 128, 0, 2, 3, 4, 1, 0, 0, 0, true, true⟩]).2.map DataBlockHeader.blockId
      = List.range' 1 (runLoop ⟨false, some 7, 42, 3⟩ [⟨-1, 0, true, 5, []⟩] equipmentStartState
        [⟨0, 96, 0, 2, 3, 4, 1, 0, 0, 0, false, true⟩,
         ⟨0, 128, 0, 2, 3, 4, 1, 0, 0, 0, true, true⟩]).2.length :=
  ⟨rfl, C7_blockId_sequence ⟨false, some 7, 42, 3⟩ [⟨-1, 0, true, 5, []⟩]
    [⟨0, 96, 0, 2, 3, 4, 1, 0, 0, 0, false, true⟩,
     ⟨0, 128, 0, 2, 3, 4, 1, 0, 0, 0, true, true⟩] rfl⟩

/-- Counterexample to claim C6 as stated: at the very start of a run
(`nBlocksOut = 0`), with rate 1000 Hz, elapsed time 0, the rate clock not
at its tick and a block available, the budget is 0 (≤ 0), yet no throttle
event is recorded: the code additionally requires `nBlocksOut != 0`. -/
theorem C6_counterexample :
    ((⟨1000, 0, false, 4, []⟩ : IterEnv).clkIsTimeout = false
      ∧ 0 < (⟨1000, 0, false, 4, []⟩ : IterEnv).readoutRate
      ∧ maxBlocksToRead ⟨1000, 0, false, 4, []⟩ equipmentStartState ≤ 0)
    ∧ (threadCallbackIteration ⟨false, none, 0, 0⟩ ⟨1000, 0, false, 4, []⟩ equipmentStartState
        [⟨0, 96, 0, 2, 3, 4, 1, 0, 0, 0, false, true⟩]).state.nThrottle
      = equipmentStartState.nThrottle := by
  refine ⟨⟨rfl, by norm_num, by norm_num [maxBlocksToRead, ratTrunc]⟩, ?_⟩
  rw [threadCallbackIteration, if_neg (by simp [equipmentStartState])]

/-- Claim C6, amended: with `readoutRate > 0` the budget is
`maxBlocksToRead = trunc(readoutRate * elapsed - nBlocksOut)`; when the
rate clock has not reached its next tick, at least one block has already
been emitted (`nBlocksOut ≠ 0`) and that budget is ≤ 0, the iteration
records exactly one throttle event and yields without emitting any
block. -/
theorem C6_throttle (cfg : EqConfig) (env : IterEnv) (s : EqState)
    (pending : List DataBlockHeader)
    (hrate : 0 < env.readoutRate) (hclk : env.clkIsTimeout = false)
    (hblocks : s.nBlocksOut ≠ 0) (hbudget : maxBlocksToRead env s ≤ 0) :
    maxBlocksToRead env s = ratTrunc (env.readoutRate * env.elapsed - (s.nBlocksOut : ℚ))
    ∧ threadCallbackIteration cfg env s pending
      = ⟨{ s with nThrottle := s.nThrottle + 1 }, [], pending⟩ := by
  constructor
  · simp [maxBlocksToRead, hrate]
  · rw [threadCallbackIteration, if_pos ⟨hrate, hclk, hblocks, hbudget⟩]

/-- Witness for C6 (amended): rate 1000 Hz, elapsed 1 s, 2000 blocks
already emitted gives budget −1000 ≤ 0; the iteration counts one throttle
and emits nothing. -/
theorem C6_throttle_witness :
    (0 < (⟨1000, 1, false, 4, []⟩ : IterEnv).readoutRate
      ∧ (⟨1000, 1, false, 4, []⟩ : IterEnv).clkIsTimeout = false
      ∧ (⟨5, 2000, 0, 0⟩ : EqState).nBlocksOut ≠ 0
      ∧ maxBlocksToRead ⟨1000, 1, false, 4, []⟩ ⟨5, 2000, 0, 0⟩ ≤ 0)
    ∧ threadCallbackIteration ⟨false, none, 0, 0⟩ ⟨1000, 1, false, 4, []⟩ ⟨5, 2000, 0, 0⟩
        [⟨0, 96, 0, 2, 3, 4, 1, 0, 0, 0, false, true⟩]
      = ⟨{ (⟨5, 2000, 0, 0⟩ : EqState) with nThrottle := 0 + 1 }, [],
         [⟨0, 96, 0, 2, 3, 4, 1, 0, 0, 0, false, true⟩]⟩ :=
  ⟨⟨by norm_num, rfl, by decide, by norm_num [maxBlocksToRead, ratTrunc]⟩,
    (C6_throttle ⟨false, none, 0, 0⟩ ⟨1000, 1, false, 4, []⟩ ⟨5, 2000, 0, 0⟩
      [⟨0, 96, 0, 2, 3, 4, 1, 0, 0, 0, false, true⟩]
      (by norm_num) rfl (by decide) (by norm_num [maxBlocksToRead, ratTrunc])).2⟩


/-- Helper: reading the queue just written. -/
theorem qset_same {α : Type} (qs : ℕ → List α) (i : ℕ) (v : List α) :
    qset qs i v i = v := by
  simp [qset]

/-- Helper: overwriting a queue twice keeps the last write. -/
theorem qset_qset {α : Type} (qs : ℕ → List α) (i : ℕ) (v w : List α) :
    qset (qset qs i v) i w = qset qs i w := by
  funext j
  by_cases h : j = i <;> simp [qset, h]

/-- Helper: writing back the current value changes nothing. -/
theorem qset_self {α : Type} (qs : ℕ → List α) (i : ℕ) :
    qset qs i (qs i) = qs := by
  funext j
  by_cases h : j = i <;> simp [qset, h]

/-- Helper: one sender pop from a non-empty queue. -/
theorem rrCollect_cons {α : Type} (n start : ℕ) (qs : ℕ → List α) (k : ℕ)
    (x : α) (rest : List α) (h : qs start = x :: rest) :
    rrCollect n start qs (k + 1)
      = x :: rrCollect n ((start + 1) % n) (qset qs start rest) k := by
  simp only [rrCollect]
  rw [h]

/-- Helper for C3: collecting round-robin from the queues filled by the
round-robin distribution, starting at the same index, returns exactly the
distributed sequence. -/
theorem rrCollect_rrDistribute {α : Type} (n : ℕ) (xs : List α) :
    ∀ start, rrCollect n start (rrDistribute n start xs) xs.length = xs := by
  induction xs with
  | nil => intro start; rfl
  | cons x xs ih =>
    intro start
    have hq : (rrDistribute n start (x :: xs)) start
        = x :: (rrDistribute n ((start + 1) % n) xs) start := by
      simp [rrDistribute, qset]
    rw [show (x :: xs).length = xs.length + 1 from rfl]
    rw [rrCollect_cons n start _ xs.length x _ hq]
    congr 1
    have he : qset (rrDistribute n start (x :: xs)) start
        ((rrDistribute n ((start + 1) % n) xs) start)
        = rrDistribute n ((start + 1) % n) xs := by
      show qset (qset (rrDistribute n ((start + 1) % n) xs) start _) start _ = _
      rw [qset_qset, qset_self]
    rw [he]
    exact ih ((start + 1) % n)

/-- Claim C3: each pushed timeframe buffer goes whole to a single worker
and the write index advances by one modulo the number of workers; the
sender pops the worker output queues in the same round-robin order, so
collecting returns exactly the pushed sequence, and a monotone pushed
timeframe-id sequence yields a monotone egress sequence. -/
theorem C3_round_robin_ordering (nwThreads wThreadFifoSize : ℕ) (st : DispatcherState)
    (buf : TimeframeBuffer)
    (hix : st.wThreadIxWrite < nwThreads)
    (hbuf : st.currentTimeframeBuffer = some buf)
    (hroom : (st.workerInputs st.wThreadIxWrite).length < wThreadFifoSize) :
    ((pushCurrentTimeframe nwThreads wThreadFifoSize st).1.wThreadIxWrite
        = (st.wThreadIxWrite + 1) % nwThreads
      ∧ (pushCurrentTimeframe nwThreads wThreadFifoSize st).1.workerInputs
          st.wThreadIxWrite
        = st.workerInputs st.wThreadIxWrite ++ [buf])
    ∧ (∀ (tfs : List ℕ) (start : ℕ),
        rrCollect nwThreads start (rrDistribute nwThreads start tfs) tfs.length = tfs)
    ∧ (∀ (tfs : List ℕ) (start : ℕ), List.Chain' (· ≤ ·) tfs →
        List.Chain' (· ≤ ·)
          (rrCollect nwThreads start (rrDistribute nwThreads start tfs) tfs.length)) := by
  refine ⟨?_, fun tfs start => rrCollect_rrDistribute nwThreads tfs start, ?_⟩
  · have hpush : pushCurrentTimeframe nwThreads wThreadFifoSize st
        = ({ st with
              currentTimeframeBuffer := none,
              workerInputs := qset st.workerInputs st.wThreadIxWrite
                (st.workerInputs st.wThreadIxWrite ++ [buf]),
              wThreadIxWrite :=
                if st.wThreadIxWrite + 1 = nwThreads then 0
                else st.wThreadIxWrite + 1 }, 0) := by
      unfold pushCurrentTimeframe
      rw [hbuf]
      dsimp only
      rw [if_neg (by omega)]
    constructor
    · rw [hpush]
      show (if st.wThreadIxWrite + 1 = nwThreads then 0 else st.wThreadIxWrite + 1)
          = (st.wThreadIxWrite + 1) % nwThreads
      by_cases h : st.wThreadIxWrite + 1 = nwThreads
      · rw [if_pos h, h, Nat.mod_self]
      · rw [if_neg h, Nat.mod_eq_of_lt (by omega)]
    · rw [hpush]
      exact qset_same st.workerInputs st.wThreadIxWrite _
  · intro tfs start hmono
    rw [rrCollect_rrDistribute nwThreads tfs start]
    exact hmono

/-- Witness for C3: two workers, write index 1, a buffered timeframe and a
free FIFO slot; and monotone collection of the pushed sequence [1, 1, 2]. -/
theorem C3_round_robin_ordering_witness :
    ((1 < 2
      ∧ (⟨5, some [[⟨0, 0, 0, 2, 3, 4, 5, 0, 0, 0, true, true⟩]], 1, 0,
            fun _ => []⟩ : DispatcherState).currentTimeframeBuffer
          = some [[⟨0, 0, 0, 2, 3, 4, 5, 0, 0, 0, true, true⟩]]
      ∧ (((⟨5, some [[⟨0, 0, 0, 2, 3, 4, 5, 0, 0, 0, true, true⟩]], 1, 0,
            fun _ => []⟩ : DispatcherState)).workerInputs 1).length < 4)
    ∧ (pushCurrentTimeframe 2 4
        ⟨5, some [[⟨0, 0, 0, 2, 3, 4, 5, 0, 0, 0, true, true⟩]], 1, 0,
          fun _ => []⟩).1.wThreadIxWrite = (1 + 1) % 2)
    ∧ rrCollect 2 0 (rrDistribute 2 0 [1, 1, 2]) 3 = [1, 1, 2] := by
  refine ⟨⟨⟨by decide, rfl, by decide⟩, ?_⟩, ?_⟩
  · exact (C3_round_robin_ordering 2 4
      ⟨5, some [[⟨0, 0, 0, 2, 3, 4, 5, 0, 0, 0, true, true⟩]], 1, 0, fun _ => []⟩
      [[⟨0, 0, 0, 2, 3, 4, 5, 0, 0, 0, true, true⟩]]
      (by decide) rfl (by decide)).1.1
  · exact (C3_round_robin_ordering 2 4
      ⟨5, some [[⟨0, 0, 0, 2, 3, 4, 5, 0, 0, 0, true, true⟩]], 1, 0, fun _ => []⟩
      [[⟨0, 0, 0, 2, 3, 4, 5, 0, 0, 0, true, true⟩]]
      (by decide) rfl (by decide)).2.1 [1, 1, 2] 0

/-- Counterexample to claim C8 as stated: a dataset whose pages span two
timeframes but whose first and last pages agree ([TF 1, TF 2, TF 1]) is
*not* rejected: the code only compares the first and last blocks, so the
push succeeds (returns 0) and `totalPushError` stays 0. -/
theorem C8_counterexample :
    (([⟨0, 0, 0, 2, 3, 4, 1, 0, 0, 0, false, true⟩,
       ⟨0, 0, 0, 2, 3, 4, 2, 0, 0, 0, false, true⟩,
       ⟨0, 0, 0, 2, 3, 4, 1, 0, 0, 0, false, true⟩] :
        List DataBlockHeader).map DataBlockHeader.timeframeId = [1, 2, 1])
    ∧ (processForDataDistribution 2 4 ⟨0, none, 0, 0, fun _ => []⟩
        [⟨0, 0, 0, 2, 3, 4, 1, 0, 0, 0, false, true⟩,
         ⟨0, 0, 0, 2, 3, 4, 2, 0, 0, 0, false, true⟩,
         ⟨0, 0, 0, 2, 3, 4, 1, 0, 0, 0, false, true⟩]).2 = 0
    ∧ (processForDataDistribution 2 4 ⟨0, none, 0, 0, fun _ => []⟩
        [⟨0, 0, 0, 2, 3, 4, 1, 0, 0, 0, false, true⟩,
         ⟨0, 0, 0, 2, 3, 4, 2, 0, 0, 0, false, true⟩,
         ⟨0, 0, 0, 2, 3, 4, 1, 0, 0, 0, false, true⟩]).1.totalPushError = 0 :=
  ⟨rfl, rfl, rfl⟩

/-- Claim C8, amended: a dataset whose *first and last* pages carry
different timeframeId values is rejected: `totalPushError` is incremented,
-1 is returned, and nothing else of the dispatcher state (in particular no
worker input FIFO) changes; the dispatcher keeps running. -/
theorem C8_mixed_tf_dataset_rejected (nwThreads wThreadFifoSize : ℕ)
    (st : DispatcherState) (b1 : DataBlockHeader) (rest : List DataBlockHeader)
    (hne : b1.timeframeId ≠ ((b1 :: rest).getLastD b1).timeframeId) :
    processForDataDistribution nwThreads wThreadFifoSize st (b1 :: rest)
      = ({ st with totalPushError := st.totalPushError + 1 }, -1) := by
  simp only [processForDataDistribution]
  rw [if_pos hne]

/-- Witness for C8 (amended): a two-block dataset with TF 1 and TF 2 is
rejected with one error count. -/
theorem C8_mixed_tf_dataset_rejected_witness :
    ((⟨0, 0, 0, 2, 3, 4, 1, 0, 0, 0, false, true⟩ : DataBlockHeader).timeframeId
      ≠ (((⟨0, 0, 0, 2, 3, 4, 1, 0, 0, 0, false, true⟩ : DataBlockHeader) ::
          [⟨0, 0, 0, 2, 3, 4, 2, 0, 0, 0, false, true⟩]).getLastD
            ⟨0, 0, 0, 2, 3, 4, 1, 0, 0, 0, false, true⟩).timeframeId)
    ∧ processForDataDistribution 2 4 ⟨0, none, 0, 7, fun _ => []⟩
        (⟨0, 0, 0, 2, 3, 4, 1, 0, 0, 0, false, true⟩ ::
          [⟨0, 0, 0, 2, 3, 4, 2, 0, 0, 0, false, true⟩])
      = ({ (⟨0, none, 0, 7, fun _ => []⟩ : DispatcherState) with
            totalPushError := 7 + 1 }, -1) :=
  ⟨by decide, C8_mixed_tf_dataset_rejected 2 4 ⟨0, none, 0, 7, fun _ => []⟩
    ⟨0, 0, 0, 2, 3, 4, 1, 0, 0, 0, false, true⟩
    [⟨0, 0, 0, 2, 3, 4, 2, 0, 0, 0, false, true⟩] (by decide)⟩

end Readout
